import Mathlib

/-!
# Verification of the GWAS-catalog MCP server's response pipeline

This file gives a shallow embedding, in Lean 4, of the pure core of the
repository (`src/server.py` and `src/utils.py`): the JSON data model, the
EFO-identifier validator, the link stripper, the embedded-item extractor,
the significance annotator, and the response processor, together with the
pre-network phase of the per-endpoint operations.  Theorems about these
definitions settle the specification's claims.

Modelling conventions:
* JSON values are the inductive `JValue`; Python dicts are association
  lists in insertion order (CPython dicts preserve insertion order and
  have unique keys; association lists are read with first-match lookup).
* Python numbers (ints and floats) are modelled as exact rationals `ℚ`;
  the `float` builtin is modelled by `pyFloat`, which parses numeric
  strings exactly (the double rounding and the overflow-to-infinity of
  the runtime are not modelled; `inf` and `nan` results are).  Rationals
  are always built through `Rat.divInt` so that concrete runs reduce.
* Code that can raise an exception that is not caught (`float` inside
  `sorted`'s key, attribute errors) is modelled with `Option`/`Except`.
-/

/-- A parsed JSON value, as handled by the server: `null`, booleans,
numbers (exact rationals), strings, arrays, and objects (ordered
association lists, as CPython dicts preserve insertion order). -/
inductive JValue where
  | jnull
  | jbool (b : Bool)
  | jnum (q : ℚ)
  | jstr (s : String)
  | jarr (elems : List JValue)
  | jobj (fields : List (String × JValue))

/-- A JSON object (a Python dict): keys with values, in insertion order. -/
abbrev Obj := List (String × JValue)

/-- First-match lookup, `d[k]` when present (Python `dict.get` without a
default returns `None` for a missing key; see `objGetD`). -/
def objGet (fs : Obj) (k : String) : Option JValue :=
  (fs.find? (fun p => p.1 = k)).map (fun p => p.2)

/-- Python `d.get(k)`: the stored value, or `None` when the key is absent. -/
def objGetD (fs : Obj) (k : String) : JValue :=
  match objGet fs k with
  | some v => v
  | none => .jnull

/-- Python `d[k] = v`: overwrite the value of an existing key in place
(first occurrence — dicts have unique keys), else append the new entry at
the end (insertion order). -/
def objSet : Obj → String → JValue → Obj
  | [], k, v => [(k, v)]
  | (k', v') :: fs, k, v =>
    if k' = k then (k, v) :: fs else (k', v') :: objSet fs k v

/-- Python truthiness of a JSON value: `None`, `False`, zero, and empty
strings/arrays/objects are falsy. (A rational of type `ℚ` is zero iff its
numerator is zero.) -/
def pyTruthy : JValue → Bool
  | .jnull => false
  | .jbool b => b
  | .jnum q => !(q.num = 0 : Bool)
  | .jstr s => !s.isEmpty
  | .jarr xs => !xs.isEmpty
  | .jobj fs => !fs.isEmpty

/-- Partial model of Python `str.isdigit` on a single character: the ASCII
decimal digits, plus the superscript digit characters, which CPython's
`str.isdigit` also accepts ("digits that need special handling, such as
the compatibility superscript digits").  Other Unicode digit characters
accepted by CPython are omitted; no input considered below uses them. -/
def pyDigitChar (c : Char) : Bool :=
  c.isDigit || c = '⁰' || c = '¹' || c = '²' || c = '³' || c = '⁴' ||
    c = '⁵' || c = '⁶' || c = '⁷' || c = '⁸' || c = '⁹'

/-- Python `s.isdigit()`: non-empty and every character a (Python) digit. -/
def pyIsdigit (s : String) : Bool :=
  !s.isEmpty && s.toList.all pyDigitChar

/-! ## Exact parsing of numeric strings (the `float` builtin) -/

/-- The result of Python's `float(...)`: a finite value (exact rational),
or one of the special values `inf`, `-inf`, `nan`. -/
inductive PFloat where
  | finite (q : ℚ)
  | inf
  | neginf
  | nan
deriving DecidableEq

/-- Take the longest prefix of ASCII decimal digits. -/
def spanDigits : List Char → List Char × List Char
  | [] => ([], [])
  | c :: rest =>
    if c.isDigit then
      let (d, r) := spanDigits rest
      (c :: d, r)
    else ([], c :: rest)

/-- The natural number denoted by a list of ASCII decimal digits. -/
def digitsToNat (ds : List Char) : Nat :=
  ds.foldl (fun a c => 10 * a + (c.toNat - '0'.toNat)) 0

/-- Parse an exponent part (after the `e`/`E`): optional sign, then at
least one digit, consuming the whole remaining input. -/
def parseExpPart (cs : List Char) : Option Int :=
  let signed : Bool × List Char :=
    match cs with
    | '+' :: r => (false, r)
    | '-' :: r => (true, r)
    | r => (false, r)
  let (ds, r2) := spanDigits signed.2
  if ds.isEmpty || !r2.isEmpty then none
  else some (if signed.1 then -(digitsToNat ds : Int) else (digitsToNat ds : Int))

/-- Compute `m * 10^e` exactly, for an integer mantissa-numerator `m` over
denominator `10^f` (the fractional length), with exponent `e`. -/
def scaleByExp (m : Int) (f : Nat) (e : Int) : ℚ :=
  if 0 ≤ e - f then Rat.divInt (m * 10 ^ (e - (f : Int)).toNat) 1
  else Rat.divInt m (10 ^ ((f : Int) - e).toNat)

/-- Parse an unsigned decimal literal `digits[.digits][ (e|E) exp ]` with
at least one digit in the mantissa, consuming the whole input. -/
def parseDecimal (cs : List Char) : Option ℚ :=
  let (ip, r1) := spanDigits cs
  match r1 with
  | '.' :: r2 =>
    let (fp, r3) := spanDigits r2
    if ip.isEmpty && fp.isEmpty then none
    else
      let m : Int := (digitsToNat ip : Int) * 10 ^ fp.length + (digitsToNat fp : Int)
      match r3 with
      | [] => some (scaleByExp m fp.length 0)
      | 'e' :: r4 => (parseExpPart r4).map (scaleByExp m fp.length)
      | 'E' :: r4 => (parseExpPart r4).map (scaleByExp m fp.length)
      | _ => none
  | 'e' :: r4 =>
    if ip.isEmpty then none
    else (parseExpPart r4).map (scaleByExp (digitsToNat ip) 0)
  | 'E' :: r4 =>
    if ip.isEmpty then none
    else (parseExpPart r4).map (scaleByExp (digitsToNat ip) 0)
  | [] => if ip.isEmpty then none else some (scaleByExp (digitsToNat ip) 0 0)
  | _ => none

/-- Partial model of Python `float(str)`: strip surrounding whitespace, an
optional sign, then either (case-insensitively) `inf`/`infinity`/`nan` or
a decimal literal.  `ValueError` is `none`.  (Underscored digit groups,
which newer CPython also accepts, are not modelled; no input below uses
them.) -/
def pyParseFloat (s : String) : Option PFloat :=
  let cs := ((s.toList.dropWhile Char.isWhitespace).reverse.dropWhile
    Char.isWhitespace).reverse
  let signed : Bool × List Char :=
    match cs with
    | '-' :: r => (true, r)
    | '+' :: r => (false, r)
    | r => (false, r)
  let low := signed.2.map Char.toLower
  if low = "inf".toList || low = "infinity".toList then
    some (if signed.1 then .neginf else .inf)
  else if low = "nan".toList then some .nan
  else (parseDecimal signed.2).map
    (fun q => .finite (if signed.1 then -q else q))

/-- Python `float(x)` on a JSON value: numbers are returned exactly,
booleans become `0`/`1`, strings are parsed; `None`, arrays and objects
raise `TypeError` (`none`). -/
def pyFloat : JValue → Option PFloat
  | .jnum q => some (.finite q)
  | .jbool b => some (.finite (if b then 1 else 0))
  | .jstr s => pyParseFloat s
  | _ => none

/-- The float comparison `p <= t` against a finite rational threshold:
`-inf` compares below everything, `inf` and `nan` never compare `<=`. -/
def pfLe (p : PFloat) (t : ℚ) : Bool :=
  match p with
  | .finite q => decide (q ≤ t)
  | .inf => false
  | .neginf => true
  | .nan => false

/-! ## `utils.py` -/

mutual

/-- Model of `_remove_links` (utils.py:53-73): recursively drop every `"_links"`
entry from dicts, recursing into retained values and into lists; any
other value is returned unchanged. -/
def _remove_links : JValue → JValue
  | .jobj fs => .jobj (removeLinksFields fs)
  | .jarr xs => .jarr (removeLinksElems xs)
  | v => v

/-- The list clause of `_remove_links`. -/
def removeLinksElems : List JValue → List JValue
  | [] => []
  | x :: xs => _remove_links x :: removeLinksElems xs

/-- The dict clause of `_remove_links`: keep the entries whose key is not
`"_links"`, transforming their values. -/
def removeLinksFields : Obj → Obj
  | [] => []
  | (k, v) :: fs =>
    if k = "_links" then removeLinksFields fs
    else (k, _remove_links v) :: removeLinksFields fs

end

/-- Model of `validate_efo_id` (utils.py:10-23): raise `ValueError` unless the
input is a string starting with the four characters `EFO_` whose
remainder passes `str.isdigit` (Python's digit test, see `pyIsdigit`).
`efo_id.startswith("EFO_")` is modelled as a comparison of the first four
characters, `efo_id[4:]` as dropping four characters. -/
def validate_efo_id (efo_id : JValue) : Except String Unit :=
  match efo_id with
  | .jstr s =>
    if s.toList.take 4 = "EFO_".toList && pyIsdigit (s.drop 4) then .ok ()
    else .error ("Invalid EFO ID format: " ++ s ++
      ". Must be in format EFO_XXXXXXX where X is a digit.")
  | _ => .error "EFO ID must be a string"

/-- Whether a fallible step succeeded (no exception was raised). -/
def exceptIsOk : Except ε α → Bool
  | .ok _ => true
  | .error _ => false

/-- Model of `write_large_result_to_file` (utils.py:26-50): the source
writes the items to a fresh uniquely-named file and returns its path; the
model returns the path, with the random token of the real filename
abstracted to a fixed name (no claim inspects the path's content, only
the key's presence). -/
def write_large_result_to_file (output_dir : String) (_resp_url : String)
    (_items : List Obj) : String :=
  output_dir ++ "/large_result.json"

/-- Model of `get_default_output_dir` (utils.py:75-83): the environment override
used for tests is abstracted away; the default is `/tmp`. -/
def get_default_output_dir : String := "/tmp"

/-! ## `server.py`: extraction and significance annotation -/

/-- The threshold `GWAS_THRESHOLD = 5e-8` (server.py:29), as an exact
rational. -/
def GWAS_THRESHOLD : ℚ := Rat.divInt 5 (10 ^ 8)

/-- The constant `BASE_URL` (server.py:20). -/
def BASE_URL : String := "https://www.ebi.ac.uk/gwas/rest/api"

/-- Model of `_extract_embedded_items` (server.py:53-75): non-dict body, non-dict
`_embedded` container, or absent key yield `[]`; a dict value whose every
key passes `str.isdigit` yields its values in iteration order; a list
value is returned as is; anything else yields `[]`. -/
def _extract_embedded_items (data : JValue)
    (key : String := "associations") : List JValue :=
  match data with
  | .jobj fs =>
    match objGetD fs "_embedded" with
    | .jobj efs =>
      -- `embedded.get(key, [])` followed by the two isinstance tests
      match objGet efs key with
      | some (.jobj ifs) =>
        if ifs.all (fun p => pyIsdigit p.1) then ifs.map (fun p => p.2)
        else []
      | some (.jarr xs) => xs
      | _ => []
    | _ => []
  | _ => []

/- note: `data.get("_embedded", {})` defaults to `{}` when the key is
absent, and `{}.get(key, [])` is `[]`; `objGetD fs "_embedded"` returns
`jnull` in that case, which the `| _ => []` of the outer match sends to
`[]` — the same result. -/

/-- The extraction policy in the words of spec §4.3, amended in one
point: the digit test on the keys is Python's `str.isdigit`
(`pyIsdigit`), not "decimal digit `0`-`9`".  Policy: a body that is not
a keyed mapping, a nested container that is not a keyed mapping, or an
absent target key give the empty sequence; a digit-keyed mapping gives
its values in iteration order; a sequence is returned as is; anything
else gives the empty sequence. -/
def extract_embedded_items_policy (data : JValue) (key : String) :
    List JValue :=
  match data with
  | .jobj body =>
    match objGet body "_embedded" with
    | some (.jobj container) =>
      match objGet container key with
      | some (.jobj entries) =>
        if entries.all (fun p => pyIsdigit p.1) then entries.map Prod.snd
        else []
      | some (.jarr seq) => seq
      | some _ => []
      | none => []
    | _ => []
  | _ => []

/-- The value `item.get('pvalue') or item.get('p_value')` (server.py:92):
Python's `or` takes the first operand when it is *truthy*, otherwise the
second (which is `None` for an absent key). -/
def pvalue_selected (item : Obj) : JValue :=
  let a := objGetD item "pvalue"
  if pyTruthy a then a else objGetD item "p_value"

/-- The `is_gwas_significant` value computed for one record
(server.py:89-99): `None` when the selected p-value is `None`; otherwise
`float` it — on success the flag is `p <= GWAS_THRESHOLD`, and a
`ValueError`/`TypeError` from `float` degrades the flag to `None`. -/
def addFlagValue (item : Obj) : JValue :=
  match pvalue_selected item with
  | .jnull => .jnull
  | v =>
    match pyFloat v with
    | some p => .jbool (pfLe p GWAS_THRESHOLD)
    | none => .jnull

/-- Annotating one record: `item['is_gwas_significant'] = ...`. -/
def addFlagItem (item : Obj) : Obj :=
  objSet item "is_gwas_significant" (addFlagValue item)

/-- Model of `_add_gwas_significance` (server.py:77-101): annotate every record
with its `is_gwas_significant` flag (the empty-list short-circuit of the
code returns the same empty list). -/
def _add_gwas_significance (items : List Obj) : List Obj :=
  items.map addFlagItem

/-! ## The response envelope and `_process_api_response` -/

/-- The `metadata` dict of an envelope.  An `Option` field models the
presence or absence of the corresponding key. -/
structure Metadata where
  subset_size : Nat
  max_items_in_memory : Int
  return_only_sig : Option Bool := none
  total_items : Option Nat := none
  significant_items : Option Nat := none
  output_file : Option String := none

/-- The response envelope built by `_process_api_response` and
`create_empty_response`.  The empty shape carries `total_count` and no
`total_items_aft_process`; the processed shapes carry the converse —
`Option` fields model key presence. -/
structure Envelope where
  request_url : String
  items : List Obj
  total_count : Option Nat := none
  total_items_aft_process : Option Nat := none
  is_complete : Bool
  metadata : Metadata

/-- Model of `create_empty_response` (utils.py:85-106). -/
def create_empty_response (request_url : String) (max_items_in_memory : Int)
    (return_only_sig : Bool) : Envelope :=
  { request_url := request_url
    items := []
    total_count := some 0
    is_complete := true
    metadata :=
      { subset_size := 0
        max_items_in_memory := max_items_in_memory
        return_only_sig := some return_only_sig } }

/-- The truthiness test `item.get("is_gwas_significant", False)` used for
counting and filtering (server.py:148,155): the default `False` and a
stored `None` are both falsy, so this is truthiness of `objGetD`. -/
def truthyFlag (item : Obj) : Bool :=
  pyTruthy (objGetD item "is_gwas_significant")

/-- The item list surviving steps 3-4 of the processor (server.py:146-159
before link stripping): unchanged when significance processing is
skipped; otherwise annotated, and filtered to the truthy-flag records
when `return_only_sig` is set. -/
def surviving_items (items : List Obj) (return_only_sig skip : Bool) :
    List Obj :=
  if skip then items
  else if return_only_sig then
    (_add_gwas_significance items).filter truthyFlag
  else _add_gwas_significance items

/-- Link stripping over the item list (server.py:162-163). -/
def strip_step (remove_links : Bool) (items : List Obj) : List Obj :=
  if remove_links then items.map removeLinksFields else items

/-- The metadata assembled at server.py:140-153: the base dict, updated
with the significance counts unless significance processing is skipped.
(`subset_size` is overwritten later, as in the code.) -/
def response_metadata (items : List Obj) (max_items_in_memory : Int)
    (return_only_sig skip : Bool) : Metadata :=
  if skip then
    { subset_size := 0, max_items_in_memory := max_items_in_memory }
  else
    { subset_size := 0
      max_items_in_memory := max_items_in_memory
      return_only_sig := some return_only_sig
      total_items := some items.length
      significant_items :=
        some ((_add_gwas_significance items).filter truthyFlag).length }

/-- Python's slice `xs[:t]` for an arbitrary integer bound: a nonnegative
bound keeps the first `t` elements; a negative bound drops the last `-t`
(both are a `take`). -/
def pySliceTo (xs : List α) (t : Int) : List α :=
  if 0 ≤ t then xs.take t.toNat
  else xs.take ((xs.length : Int) + t).toNat

/-- Model of `_process_api_response` (server.py:103-190).  Control flow as in the
code: empty input returns the canonical empty envelope (with zero counts
unless significance processing is skipped); when filtering empties the
list, the empty envelope merged with the significance metadata is
returned; otherwise links are stripped, and the result either spills
(`is_complete = false`, truncated `items`, `output_file` set) when the
surviving count exceeds the threshold and `force_no_file` is unset, or
`force_to_file` is set — or is returned whole (`is_complete = true`). -/
def _process_api_response (items : List Obj) (request_url : String)
    (max_items_in_memory : Int) (return_only_sig : Bool)
    (remove_links : Bool := true) (output_dir : Option String := none)
    (force_to_file : Bool := false) (force_no_file : Bool := false)
    (skip_gwas_significance : Bool := false) : Envelope :=
  if items.isEmpty then
    let e := create_empty_response request_url max_items_in_memory
      return_only_sig
    if skip_gwas_significance then e
    else { e with metadata :=
      { e.metadata with total_items := some 0, significant_items := some 0 } }
  else if skip_gwas_significance = false ∧ return_only_sig = true ∧
      (surviving_items items return_only_sig skip_gwas_significance).isEmpty
      then
    let e := create_empty_response request_url max_items_in_memory
      return_only_sig
    { e with metadata := (response_metadata items max_items_in_memory
        return_only_sig skip_gwas_significance) }
  else
    let surv := strip_step remove_links
      (surviving_items items return_only_sig skip_gwas_significance)
    let md := response_metadata items max_items_in_memory return_only_sig
      skip_gwas_significance
    let total_items_aft_process := surv.length
    if ((total_items_aft_process : Int) > max_items_in_memory ∧
        force_no_file = false) ∨ force_to_file = true then
      let output_file := write_large_result_to_file
        (output_dir.getD get_default_output_dir) request_url surv
      { request_url := request_url
        items := pySliceTo surv max_items_in_memory
        total_items_aft_process := some total_items_aft_process
        is_complete := false
        metadata := { md with
          subset_size := (pySliceTo surv max_items_in_memory).length
          output_file := some output_file } }
    else
      { request_url := request_url
        items := surv
        total_items_aft_process := some total_items_aft_process
        is_complete := true
        metadata := { md with subset_size := total_items_aft_process } }

/-! ## `trait_variant_ranking` (server.py:374-418), up to the processor -/

/-- The sort key `float(x.get("pvalue", float("inf")))` (server.py:407);
`none` models an uncaught `ValueError`/`TypeError` from `float`. -/
def rank_key (fs : Obj) : Option PFloat :=
  match objGet fs "pvalue" with
  | some pv => pyFloat pv
  | none => some .inf

/-- The filtered list `[v for v in items if v.get("pvalue")]`
(server.py:407), keeping the dict records with a truthy `pvalue`.  (The
comprehension raises `AttributeError` on a non-dict element; that case is
handled in `trait_variant_ranking_presort`.) -/
def rank_kept (items : List JValue) : List Obj :=
  items.filterMap (fun v =>
    match v with
    | .jobj fs => if pyTruthy (objGetD fs "pvalue") then some fs else none
    | _ => none)

/-- The `<=` between two float values: `-inf` below everything, `inf`
above every number, `nan` placed above everything to make the relation a
total preorder (see `rank_key_le` on why this is harmless). -/
def pfLeB : PFloat → PFloat → Bool
  | .finite a, .finite b => decide (a ≤ b)
  | .neginf, _ => true
  | _, .nan => true
  | .finite _, .inf => true
  | .inf, .inf => true
  | _, _ => false

/-- The key order used by `sorted`: compare parsed p-values with the
float `<=`.  `nan` is placed last to make the order total; CPython's sort
applied to incomparable `nan` keys produces a comparison-dependent order,
so the theorems below are stated for `nan`-free key sets, on which any
stable sort (this one and CPython's) produces the same list. -/
def rank_key_le (a b : Obj) : Prop :=
  pfLeB ((rank_key a).getD .nan) ((rank_key b).getD .nan) = true

instance : DecidableRel rank_key_le := fun a b =>
  inferInstanceAs (Decidable
    (pfLeB ((rank_key a).getD .nan) ((rank_key b).getD .nan) = true))

/-- Model of `sorted(...)[:top_n]` of the ranking operation
(server.py:407):
`none` models an exception escaping — a non-dict element (attribute
error in the comprehension) or an unparsable `pvalue` (`float` failing on
a sort key).  On success, a stable sort by parsed p-value, sliced to
`top_n`. -/
def trait_variant_ranking_presort (items : List JValue) (top_n : Int) :
    Option (List Obj) :=
  if items.all (fun v => match v with | .jobj _ => true | _ => false) then
    if (rank_kept items).all (fun fs => (rank_key fs).isSome) then
      some (pySliceTo (List.insertionSort rank_key_le (rank_kept items))
        top_n)
    else none
  else none

/-- Model of `trait_variant_ranking` from the extracted items on
(server.py:
402-418): empty extraction short-circuits to the canonical empty
envelope; otherwise the pre-sorted, truncated list is handed to
`_process_api_response` (with significance processing not skipped). -/
def trait_variant_ranking_core (items : List JValue) (request_url : String)
    (top_n : Int) (max_items_in_memory : Int) (return_only_sig : Bool)
    (remove_links : Bool) (output_dir : Option String)
    (force_to_file force_no_file : Bool) : Option Envelope :=
  if items.isEmpty then
    some (create_empty_response request_url max_items_in_memory
      return_only_sig)
  else
    (trait_variant_ranking_presort items top_n).map (fun sorted_items =>
      _process_api_response sorted_items request_url max_items_in_memory
        return_only_sig remove_links output_dir force_to_file force_no_file
        false)

/-! ## Pre-network phase of the per-endpoint operations

Each `..._preRequest` definition models an operation from its entry point
up to its first transport call: `Except.error` is a `ValueError` raised
by `validate_efo_id` before any request, `Except.ok url` means the first
upstream `GET` is issued (the query parameters are not part of the path
and are omitted from the modelled URL). -/

/-- Model of `search_variants_in_region` (server.py:267-300) before the
`GET`:
`if efo_id: validate_efo_id(efo_id)` — validation runs only when the
argument is truthy (`None` and `""` skip it, and skip the `efoTrait`
parameter). -/
def search_variants_in_region_preRequest (_chromosome : String)
    (_start _stop : Int) (efo_id : Option String) : Except String String :=
  match efo_id with
  | some e =>
    if pyTruthy (.jstr e) then
      match validate_efo_id (.jstr e) with
      | .ok _ => .ok (BASE_URL ++ "/associations")
      | .error m => .error m
    else .ok (BASE_URL ++ "/associations")
  | none => .ok (BASE_URL ++ "/associations")

/-- Model of `get_variants_from_efo_ids` (server.py:320-352) before its
first
`GET`: every identifier in the list is validated up front. -/
def get_variants_from_efo_ids_preRequest (efo_ids : List String) :
    Except String String :=
  match efo_ids.findSome? (fun e =>
    match validate_efo_id (.jstr e) with
    | .error m => some m
    | .ok _ => none) with
  | some m => .error m
  | none => .ok (BASE_URL ++ "/associations")

/-- Model of `trait_variant_ranking` (server.py:374-398) before the
`GET`. -/
def trait_variant_ranking_preRequest (efo_id : String) :
    Except String String :=
  match validate_efo_id (.jstr efo_id) with
  | .ok _ => .ok (BASE_URL ++ "/associations")
  | .error m => .error m

/-- Model of `get_region_trait_associations` (server.py:539-574) before
the `GET`
(against the summary-statistics base URL). -/
def get_region_trait_associations_preRequest (chromosome : String)
    (_start _stop : Int) (efo_id : String) : Except String String :=
  match validate_efo_id (.jstr efo_id) with
  | .ok _ => .ok ("https://www.ebi.ac.uk/gwas/summary-statistics/api" ++
      "/chromosomes/" ++ chromosome ++ "/associations")
  | .error m => .error m

/-- Model of `get_trait_studies` (server.py:463-479) before the `GET`: the code
issues the request directly — no call to `validate_efo_id`. -/
def get_trait_studies_preRequest (efoId : String) : Except String String :=
  .ok (BASE_URL ++ "/efoTraits/" ++ efoId ++ "/studies")

/-- Model of `get_trait_associations` (server.py:500-519) before the
`GET`: the
code issues the request directly — no call to `validate_efo_id`. -/
def get_trait_associations_preRequest (efoId : String) :
    Except String String :=
  .ok (BASE_URL ++ "/efoTraits/" ++ efoId ++ "/associations")

-- concrete parses evaluate by kernel reduction
example : pyParseFloat "1e-9" = some (.finite (Rat.divInt 1 (10 ^ 9))) := by
  decide

-- concrete runs of the pipeline evaluate by kernel reduction
example :
    (_process_api_response [[("pvalue", .jstr "1e-9")]] "u" 5 true).items =
      [[("pvalue", .jstr "1e-9"), ("is_gwas_significant", .jbool true)]] :=
  rfl

example :
    (_process_api_response [[("pvalue", .jstr "0.5")]] "u" 5 true).items =
      [] := rfl

example :
    trait_variant_ranking_presort
      [.jobj [("pvalue", .jstr "0.01")], .jobj [("pvalue", .jstr "1e-9")],
       .jobj [("pvalue", .jstr "1e-7")]] 2 =
    some [[("pvalue", .jstr "1e-9")], [("pvalue", .jstr "1e-7")]] := rfl

/-! ## Association-list lemmas -/

theorem objGet_objSet_self (fs : Obj) (k : String) (v : JValue) :
    objGet (objSet fs k v) k = some v := by
  induction fs with
  | nil => simp [objSet, objGet]
  | cons p fs ih =>
    obtain ⟨k', v'⟩ := p
    by_cases h : k' = k
    · simp [objSet, h, objGet]
    · simpa [objSet, h, objGet] using ih

theorem objGet_objSet_ne (fs : Obj) (k k' : String) (v : JValue)
    (h : k' ≠ k) : objGet (objSet fs k' v) k = objGet fs k := by
  induction fs with
  | nil => simp [objSet, objGet, h]
  | cons p fs ih =>
    obtain ⟨k₀, v₀⟩ := p
    by_cases h0 : k₀ = k'
    · subst h0
      simp [objSet, objGet, h]
    · by_cases hk : k₀ = k
      · subst hk
        simp [objSet, h0, objGet]
      · simpa [objSet, h0, objGet, hk] using ih

theorem objGet_removeLinksFields (fs : Obj) (k : String) :
    objGet (removeLinksFields fs) k =
      if k = "_links" then none else (objGet fs k).map _remove_links := by
  induction fs with
  | nil => simp [removeLinksFields, objGet]
  | cons p fs ih =>
    obtain ⟨k₀, v₀⟩ := p
    by_cases hlink : k₀ = "_links"
    · subst hlink
      by_cases hk : k = "_links"
      · simpa [removeLinksFields, objGet, hk] using ih
      · simpa [removeLinksFields, objGet, Ne.symm hk] using ih
    · by_cases hk : k₀ = k
      · subst hk
        simp [removeLinksFields, hlink, objGet, hlink]
      · simpa [removeLinksFields, hlink, objGet, hk] using ih

/-! ## Basic facts about the processor's pieces -/

theorem surviving_items_nil (ros skip : Bool) :
    surviving_items [] ros skip = [] := by
  cases skip <;> cases ros <;> simp [surviving_items, _add_gwas_significance]

theorem response_metadata_output_file (items : List Obj) (mim : Int)
    (ros skip : Bool) :
    (response_metadata items mim ros skip).output_file = none := by
  cases skip <;> simp [response_metadata]

theorem strip_step_length (rl : Bool) (items : List Obj) :
    (strip_step rl items).length = items.length := by
  cases rl <;> simp [strip_step]

theorem mem_of_mem_pySliceTo {xs : List α} {t : Int} {a : α}
    (h : a ∈ pySliceTo xs t) : a ∈ xs := by
  unfold pySliceTo at h
  split at h <;> exact List.mem_of_mem_take h

theorem length_pySliceTo_lt {xs : List α} {t : Int} (hne : xs ≠ [])
    (hgt : (xs.length : Int) > t) : (pySliceTo xs t).length < xs.length := by
  have hx : 0 < xs.length := List.length_pos.mpr hne
  unfold pySliceTo
  split <;> simp only [List.length_take] <;> omega

/-- When nothing survives filtering, the processor returns one of the
empty envelope shapes: complete, no `output_file`, no
`total_items_aft_process`, empty `items`. -/
theorem proc_of_surv_nil (items : List Obj) (url : String) (mim : Int)
    (ros rl : Bool) (dir : Option String) (ftf fnf skip : Bool)
    (h : surviving_items items ros skip = []) :
    (_process_api_response items url mim ros rl dir ftf fnf skip).is_complete
        = true ∧
    (_process_api_response items url mim ros rl dir ftf fnf
      skip).metadata.output_file = none ∧
    (_process_api_response items url mim ros rl dir ftf fnf
      skip).total_items_aft_process = none ∧
    (_process_api_response items url mim ros rl dir ftf fnf skip).items
        = [] := by
  by_cases hi : items.isEmpty = true
  · rw [_process_api_response]
    rw [if_pos hi]
    cases skip <;> simp [create_empty_response]
  · have hne : items ≠ [] := fun he => hi (by simp [he])
    have hskip : skip = false := by
      cases skip
      · rfl
      · exfalso
        simp only [surviving_items, if_pos] at h
        exact hne h
    have hros : ros = true := by
      cases ros
      · exfalso
        subst hskip
        simp only [surviving_items, Bool.false_eq_true, if_false] at h
        simp only [_add_gwas_significance, List.map_eq_nil_iff] at h
        exact hne h
      · rfl
    subst hskip hros
    rw [_process_api_response]
    rw [if_neg (by simp [hi]), if_pos ⟨rfl, rfl, by simp [h]⟩]
    simp [create_empty_response, response_metadata]

/-- When something survives filtering, the processor takes the main
branch: strip links, then spill or return whole. -/
theorem proc_main (items : List Obj) (url : String) (mim : Int)
    (ros rl : Bool) (dir : Option String) (ftf fnf skip : Bool)
    (h : surviving_items items ros skip ≠ []) :
    _process_api_response items url mim ros rl dir ftf fnf skip =
      (if (((strip_step rl (surviving_items items ros skip)).length : Int) >
            mim ∧ fnf = false) ∨ ftf = true then
        { request_url := url
          items := pySliceTo (strip_step rl (surviving_items items ros skip))
            mim
          total_items_aft_process :=
            some (strip_step rl (surviving_items items ros skip)).length
          is_complete := false
          metadata := { response_metadata items mim ros skip with
            subset_size := (pySliceTo
              (strip_step rl (surviving_items items ros skip)) mim).length
            output_file := some (write_large_result_to_file
              (dir.getD get_default_output_dir) url
              (strip_step rl (surviving_items items ros skip))) } }
      else
        { request_url := url
          items := strip_step rl (surviving_items items ros skip)
          total_items_aft_process :=
            some (strip_step rl (surviving_items items ros skip)).length
          is_complete := true
          metadata := { response_metadata items mim ros skip with
            subset_size :=
              (strip_step rl (surviving_items items ros skip)).length } }) := by
  have hne : items ≠ [] := by
    intro he
    exact h (by rw [he]; exact surviving_items_nil ros skip)
  have h2 : ¬(skip = false ∧ ros = true ∧
      (surviving_items items ros skip).isEmpty = true) := by
    rintro ⟨-, -, h2⟩
    exact h (List.isEmpty_iff.mp h2)
  rw [_process_api_response]
  rw [if_neg (by simp [hne]), if_neg h2]

/-- The annotator writes only `jnull` or a boolean flag. -/
theorem addFlagValue_shape (s : Obj) :
    addFlagValue s = .jnull ∨ ∃ b, addFlagValue s = .jbool b := by
  unfold addFlagValue
  cases hv : pvalue_selected s <;> simp
  all_goals cases hp : pyFloat _ <;> simp

/-- The flag read back from an annotated record is the computed value. -/
theorem objGet_addFlagItem (s : Obj) :
    objGet (addFlagItem s) "is_gwas_significant" = some (addFlagValue s) :=
  objGet_objSet_self s "is_gwas_significant" (addFlagValue s)

/-- Any other key of an annotated record reads as before annotation. -/
theorem objGet_addFlagItem_ne (s : Obj) (k : String)
    (h : k ≠ "is_gwas_significant") :
    objGet (addFlagItem s) k = objGet s k :=
  objGet_objSet_ne s k "is_gwas_significant" (addFlagValue s)
    (fun he => h he.symm)

/-- A value `float` accepts is an atom, hence fixed by the link
stripper. -/
theorem remove_links_of_pyFloat {v : JValue} {p : PFloat}
    (h : pyFloat v = some p) : _remove_links v = v := by
  cases v <;> first
    | rfl
    | simp [pyFloat] at h

/-- Members of the stripped list come from the unstripped one. -/
theorem mem_strip_step {rl : Bool} {xs : List Obj} {it : Obj}
    (h : it ∈ strip_step rl xs) :
    ∃ x ∈ xs, it = x ∨ it = removeLinksFields x := by
  cases rl with
  | false => exact ⟨it, by simpa [strip_step] using h, Or.inl rfl⟩
  | true =>
    simp only [strip_step, if_pos, List.mem_map] at h
    obtain ⟨x, hx, rfl⟩ := h
    exact ⟨x, hx, Or.inr rfl⟩

/-- With significance processing active, every surviving record is an
annotated input record. -/
theorem mem_surviving_noskip {items : List Obj} {ros : Bool} {it : Obj}
    (h : it ∈ surviving_items items ros false) :
    ∃ s ∈ items, it = addFlagItem s := by
  have : it ∈ _add_gwas_significance items := by
    cases ros with
    | true =>
      simp only [surviving_items, Bool.false_eq_true, if_false,
        if_pos] at h
      exact List.mem_of_mem_filter h
    | false => simpa [surviving_items] using h
  obtain ⟨s, hs, rfl⟩ := List.mem_map.mp this
  exact ⟨s, hs, rfl⟩

/-- With the significance filter on, every surviving record has a truthy
flag. -/
theorem truthyFlag_of_mem_surviving {items : List Obj} {it : Obj}
    (h : it ∈ surviving_items items true false) : truthyFlag it = true := by
  simp only [surviving_items, Bool.false_eq_true, if_false, if_pos] at h
  exact List.of_mem_filter h

/-! ## Idempotence of the link stripper -/

mutual

theorem remove_links_idem :
    ∀ v, _remove_links (_remove_links v) = _remove_links v
  | .jnull => rfl
  | .jbool _ => rfl
  | .jnum _ => rfl
  | .jstr _ => rfl
  | .jarr xs => by simp [_remove_links, removeLinksElems_idem xs]
  | .jobj fs => by simp [_remove_links, removeLinksFields_idem fs]

theorem removeLinksElems_idem :
    ∀ xs, removeLinksElems (removeLinksElems xs) = removeLinksElems xs
  | [] => rfl
  | x :: xs => by
    simp [removeLinksElems, remove_links_idem x, removeLinksElems_idem xs]

theorem removeLinksFields_idem :
    ∀ fs, removeLinksFields (removeLinksFields fs) = removeLinksFields fs
  | [] => rfl
  | (k, v) :: fs => by
    by_cases h : k = "_links"
    · simp [removeLinksFields, h, removeLinksFields_idem fs]
    · simp [removeLinksFields, h, remove_links_idem v,
        removeLinksFields_idem fs]

end
example : pyParseFloat "0.01" = some (.finite (Rat.divInt 1 100)) := by decide
example : pyParseFloat "abc" = none := by decide
example : pyParseFloat " -2.5E+1 " = some (.finite (Rat.divInt (-25) 1)) := by
  decide
example : pyParseFloat "Inf" = some .inf := by decide
example : pyParseFloat "nan" = some .nan := by decide
example : pyParseFloat "" = none := by decide
example : pyParseFloat "1." = some (.finite (Rat.divInt 1 1)) := by decide
example : pyParseFloat ".5" = some (.finite (Rat.divInt 1 2)) := by decide

/-! ## Claim C9: idempotence of link stripping -/

/-- C9: applying the link stripper twice yields the same result as
applying it once, and on values that are neither keyed mappings nor
ordered sequences it returns the value unchanged. -/
theorem C9_remove_links_idempotent :
    (∀ v, _remove_links (_remove_links v) = _remove_links v) ∧
    _remove_links .jnull = .jnull ∧
    (∀ b, _remove_links (.jbool b) = .jbool b) ∧
    (∀ q, _remove_links (.jnum q) = .jnum q) ∧
    (∀ s, _remove_links (.jstr s) = .jstr s) :=
  ⟨remove_links_idem, rfl, fun _ => rfl, fun _ => rfl, fun _ => rfl⟩

/-! ## Claim C8: the EFO identifier validator -/

/-- C8 as stated is false: CPython's `str.isdigit` accepts digit
characters beyond `0`-`9`, so `validate_efo_id` accepts `"EFO_²"` even
though its suffix contains a character that is not a decimal digit. -/
theorem C8_counterexample :
    validate_efo_id (.jstr "EFO_²") = .ok () ∧
    ("EFO_²".drop 4).toList.all Char.isDigit = false := by
  constructor
  · rfl
  · decide

/-- C8 amended: the validator accepts exactly the strings made of the
literal prefix `EFO_` followed by a non-empty run of characters passing
Python's digit test (which includes the ASCII decimal digits, and also
some non-decimal Unicode digit characters such as superscripts);
non-string input is rejected. -/
theorem C8_amended_validator_characterization (v : JValue) :
    exceptIsOk (validate_efo_id v) = true ↔
      ∃ s, v = .jstr s ∧ s.toList.take 4 = "EFO_".toList ∧
        pyIsdigit (s.drop 4) = true := by
  constructor
  · intro h
    match v with
    | .jstr s =>
      refine ⟨s, rfl, ?_, ?_⟩ <;>
      · by_contra hc
        rw [validate_efo_id] at h
        split at h
        · next hcond =>
          simp only [Bool.and_eq_true, decide_eq_true_eq] at hcond
          exact hc (by tauto)
        · simp [exceptIsOk] at h
    | .jnull | .jbool _ | .jnum _ | .jarr _ | .jobj _ =>
      simp [validate_efo_id, exceptIsOk] at h
  · rintro ⟨s, rfl, h1, h2⟩
    have h1d : List.take 4 s.data = ['E', 'F', 'O', '_'] := h1
    simp [validate_efo_id, h1d, h2, exceptIsOk]

/-! ## Claim C7: validation before the upstream request -/

/-- C7 as stated is false: the trait-studies and trait-associations
operations never call the validator — a malformed identifier reaches the
transport (the request is issued with the identifier embedded in the
URL). -/
theorem C7_counterexample :
    exceptIsOk (validate_efo_id (.jstr "not-an-efo")) = false ∧
    get_trait_studies_preRequest "not-an-efo" =
      .ok "https://www.ebi.ac.uk/gwas/rest/api/efoTraits/not-an-efo/studies" ∧
    get_trait_associations_preRequest "not-an-efo" =
      .ok ("https://www.ebi.ac.uk/gwas/rest/api/efoTraits/not-an-efo" ++
        "/associations") :=
  ⟨rfl, rfl, rfl⟩

/-- C7 amended: for every identifier failing validation, the ranking,
batch-by-trait and region+trait operations fail before any upstream
request, and so does the region search when the identifier is non-empty
(an empty string skips both validation and the trait filter); the
trait-studies and trait-associations operations, however, issue the
upstream request without validating. -/
theorem C7_amended_validation_coverage (s : String)
    (hbad : exceptIsOk (validate_efo_id (.jstr s)) = false) :
    exceptIsOk (trait_variant_ranking_preRequest s) = false ∧
    exceptIsOk (get_variants_from_efo_ids_preRequest [s]) = false ∧
    exceptIsOk (get_region_trait_associations_preRequest "1" 0 1000 s)
        = false ∧
    (s ≠ "" →
      exceptIsOk (search_variants_in_region_preRequest "1" 0 1000 (some s))
        = false) ∧
    exceptIsOk (get_trait_studies_preRequest s) = true ∧
    exceptIsOk (get_trait_associations_preRequest s) = true := by
  obtain ⟨m, hm⟩ : ∃ m, validate_efo_id (.jstr s) = .error m := by
    cases hv : validate_efo_id (.jstr s) with
    | ok u => rw [hv] at hbad; simp [exceptIsOk] at hbad
    | error m => exact ⟨m, rfl⟩
  refine ⟨?_, ?_, ?_, ?_, rfl, rfl⟩
  · simp [trait_variant_ranking_preRequest, hm, exceptIsOk]
  · simp [get_variants_from_efo_ids_preRequest, hm, exceptIsOk]
  · simp [get_region_trait_associations_preRequest, hm, exceptIsOk]
  · intro hne
    have hie : s.isEmpty = false := by
      by_contra hc
      rw [Bool.not_eq_false] at hc
      exact hne ((String.isEmpty_iff s).mp hc)
    have ht : pyTruthy (.jstr s) = true := by simp [pyTruthy, hie]
    simp [search_variants_in_region_preRequest, ht, hm, exceptIsOk]

/-- Witness for the amended C7 at the malformed identifier `"EFO_12a"`. -/
theorem C7_amended_validation_coverage_witness :
    exceptIsOk (trait_variant_ranking_preRequest "EFO_12a") = false ∧
    exceptIsOk (get_trait_studies_preRequest "EFO_12a") = true := by
  have h := C7_amended_validation_coverage "EFO_12a" rfl
  exact ⟨h.1, h.2.2.2.2.1⟩

/-! ## Claim C4: the embedded-item extractor -/

/-- C4 as stated is false: `str.isdigit` accepts non-decimal digit
characters, so a mapping keyed by the superscript two — not a decimal
digit — still has its values returned instead of the empty sequence the
claimed policy requires. -/
theorem C4_counterexample :
    _extract_embedded_items
      (.jobj [("_embedded", .jobj [("associations",
        .jobj [("²", .jstr "X")])])]) "associations" = [.jstr "X"] ∧
    '²'.isDigit = false ∧
    ([JValue.jstr "X"] = ([] : List JValue) → False) := by
  refine ⟨rfl, by decide, ?_⟩
  intro h
  exact List.noConfusion h

/-- C4 amended: the extractor implements exactly the spec's policy with
the digit test read as Python's `str.isdigit` (which also accepts, e.g.,
superscript digit characters): empty sequence for a non-mapping body, a
non-mapping `_embedded` container, or an absent/ill-shaped target key;
the values in iteration order for a digit-keyed mapping; a sequence
unchanged. -/
theorem C4_amended_extractor_follows_policy (data : JValue) (key : String) :
    _extract_embedded_items data key =
      extract_embedded_items_policy data key := by
  cases data with
  | jobj body =>
    cases hemb : objGet body "_embedded" with
    | none =>
      simp [_extract_embedded_items, extract_embedded_items_policy, objGetD,
        hemb]
    | some emb =>
      cases emb with
      | jobj container =>
        cases hit : objGet container key with
        | none =>
          simp [_extract_embedded_items, extract_embedded_items_policy,
            objGetD, hemb, hit]
        | some it =>
          cases it <;>
            simp [_extract_embedded_items, extract_embedded_items_policy,
              objGetD, hemb, hit]
      | jnull | jbool b | jnum q | jstr s | jarr xs =>
        simp [_extract_embedded_items, extract_embedded_items_policy,
          objGetD, hemb]
  | jnull | jbool b | jnum q | jstr s | jarr xs => rfl

/-! ## Claim C2: the significance annotator -/

/-- C2 as stated is false: the p-value selection is by truthiness, not
"first non-null" — a record whose `pvalue` holds the number `0` (non-null
and parseable, with `0 <= 5e-8`) falls through to the absent `p_value`
and is flagged `null`, not `true`. -/
theorem C2_counterexample :
    objGet (addFlagItem [("pvalue", .jnum 0)]) "is_gwas_significant" =
      some .jnull ∧
    objGet [("pvalue", JValue.jnum 0)] "pvalue" = some (.jnum 0) ∧
    pyFloat (.jnum 0) = some (.finite 0) ∧
    pfLe (.finite 0) GWAS_THRESHOLD = true ∧
    (JValue.jnull = .jbool true → False) := by
  refine ⟨rfl, rfl, rfl, ?_, fun h => JValue.noConfusion h⟩
  decide

/-- C2 amended: the p-value is read from `pvalue` or `p_value` with the
first *truthy* one winning (a falsy `pvalue` — null, absent, `0`, `""`,
`false` — falls through to `p_value`); when the selected value parses as
a number the flag is `(value <= 5e-8)`, and when it is null or fails to
parse the flag is null. -/
theorem C2_amended_annotator (item : Obj) :
    (pyTruthy (objGetD item "pvalue") = true →
      pvalue_selected item = objGetD item "pvalue") ∧
    (pyTruthy (objGetD item "pvalue") = false →
      pvalue_selected item = objGetD item "p_value") ∧
    (pvalue_selected item = .jnull →
      objGet (addFlagItem item) "is_gwas_significant" = some .jnull) ∧
    (∀ p, pyFloat (pvalue_selected item) = some p →
      pvalue_selected item ≠ .jnull →
      objGet (addFlagItem item) "is_gwas_significant" =
        some (.jbool (pfLe p GWAS_THRESHOLD))) ∧
    (pyFloat (pvalue_selected item) = none →
      objGet (addFlagItem item) "is_gwas_significant" = some .jnull) ∧
    _add_gwas_significance [item] = [addFlagItem item] := by
  have hflag := objGet_addFlagItem item
  refine ⟨?_, ?_, ?_, ?_, ?_, rfl⟩
  · intro h
    rw [pvalue_selected]
    simp [h]
  · intro h
    rw [pvalue_selected]
    simp [h]
  · intro h
    rw [hflag]
    unfold addFlagValue
    simp [h]
  · intro p hp hne
    rw [hflag]
    unfold addFlagValue
    cases hv : pvalue_selected item with
    | jnull => exact absurd hv hne
    | jbool b => rw [hv] at hp; simp [hp]
    | jnum q => rw [hv] at hp; simp [hp]
    | jstr s => rw [hv] at hp; simp [hp]
    | jarr xs => rw [hv] at hp; simp [pyFloat] at hp
    | jobj fs => rw [hv] at hp; simp [pyFloat] at hp
  · intro hp
    rw [hflag]
    unfold addFlagValue
    cases hv : pvalue_selected item with
    | jnull => simp
    | jbool b => rw [hv] at hp; simp [hp]
    | jnum q => rw [hv] at hp; simp [pyFloat] at hp
    | jstr s => rw [hv] at hp; simp [hp]
    | jarr xs => simp [pyFloat]
    | jobj fs => simp [pyFloat]

/-- Witness for the amended C2: a record whose `pvalue` is the string
`"3e-9"` is flagged with the comparison result — true. -/
theorem C2_amended_annotator_witness :
    objGet (addFlagItem [("pvalue", .jstr "3e-9")]) "is_gwas_significant" =
      some (.jbool (pfLe (.finite (Rat.divInt 3 (10 ^ 9))) GWAS_THRESHOLD)) ∧
    pfLe (.finite (Rat.divInt 3 (10 ^ 9))) GWAS_THRESHOLD = true := by
  constructor
  · exact (C2_amended_annotator _).2.2.2.1 (.finite (Rat.divInt 3 (10 ^ 9)))
      rfl (fun h => JValue.noConfusion h)
  · decide

/-- Reading a key through the default-returning getter when the plain
lookup succeeds. -/
theorem objGetD_eq_of_objGet {fs : Obj} {k : String} {v : JValue}
    (h : objGet fs k = some v) : objGetD fs k = v := by
  rw [objGetD, h]

/-! ## Claim C3: the spill decision -/

/-- C3: for a non-empty surviving item list and positive threshold, the
processor spills (an `output_file` is recorded and the envelope is
incomplete) exactly when the surviving count exceeds the threshold and
`force_no_file` is unset, or `force_to_file` is set — so `force_to_file`
wins when both force flags are set. -/
theorem C3_spill_condition (items : List Obj) (url : String) (mim : Int)
    (ros rl : Bool) (dir : Option String) (ftf fnf skip : Bool)
    (_hpos : 0 < mim)
    (h : surviving_items items ros skip ≠ []) :
    ((_process_api_response items url mim ros rl dir ftf fnf
        skip).metadata.output_file ≠ none ∧
      (_process_api_response items url mim ros rl dir ftf fnf
        skip).is_complete = false) ↔
      ((((surviving_items items ros skip).length : Int) > mim ∧
        fnf = false) ∨ ftf = true) := by
  rw [proc_main items url mim ros rl dir ftf fnf skip h, strip_step_length]
  by_cases hc : (((surviving_items items ros skip).length : Int) > mim ∧
      fnf = false) ∨ ftf = true
  · rw [if_pos hc]
    refine iff_of_true ⟨?_, rfl⟩ hc
    simp
  · rw [if_neg hc]
    refine iff_of_false ?_ hc
    rintro ⟨hof, -⟩
    exact hof (by simp [response_metadata_output_file])

/-- Witness for C3 at two surviving records and threshold 1 (size-driven
spill). -/
theorem C3_spill_condition_witness :
    ((_process_api_response [[("a", JValue.jnull)], []] "u" 1 false true
        none false false true).metadata.output_file ≠ none ∧
      (_process_api_response [[("a", JValue.jnull)], []] "u" 1 false true
        none false false true).is_complete = false) ↔
      ((((surviving_items [[("a", JValue.jnull)], []] false true).length :
        Int) > 1 ∧ false = false) ∨ false = true) :=
  C3_spill_condition [[("a", JValue.jnull)], []] "u" 1 false true none
    false false true (by decide) (by simp [surviving_items])

/-! ## Claim C1: the completeness invariant -/

/-- C1 as stated is false: with `force_to_file` set and a surviving count
within the threshold, the envelope has `is_complete = false` and an
`output_file`, although `len(items) = total_items_aft_process`. -/
theorem C1_counterexample :
    (_process_api_response [[("a", JValue.jnull)]] "u" 5 false true none
        true false false).is_complete = false ∧
    (_process_api_response [[("a", JValue.jnull)]] "u" 5 false true none
        true false false).total_items_aft_process = some 1 ∧
    (_process_api_response [[("a", JValue.jnull)]] "u" 5 false true none
        true false false).items.length = 1 ∧
    (_process_api_response [[("a", JValue.jnull)]] "u" 5 false true none
        true false false).metadata.output_file ≠ none :=
  ⟨rfl, rfl, rfl, fun h => Option.noConfusion h⟩

/-- C1 amended: `is_complete` is equivalent to the absence of
`output_file` on every envelope; when `force_to_file` is not set, these
are further equivalent to `len(items) = total_items_aft_process` on
every envelope that carries that field (the empty shapes carry
`total_count` instead). -/
theorem C1_amended_completeness_invariant (items : List Obj) (url : String)
    (mim : Int) (ros rl : Bool) (dir : Option String)
    (ftf fnf skip : Bool) :
    ((_process_api_response items url mim ros rl dir ftf fnf
        skip).is_complete = true ↔
      (_process_api_response items url mim ros rl dir ftf fnf
        skip).metadata.output_file = none) ∧
    (ftf = false → ∀ t,
      (_process_api_response items url mim ros rl dir ftf fnf
        skip).total_items_aft_process = some t →
      ((_process_api_response items url mim ros rl dir ftf fnf
          skip).is_complete = true ↔
        (_process_api_response items url mim ros rl dir ftf fnf
          skip).items.length = t)) := by
  by_cases h : surviving_items items ros skip = []
  · obtain ⟨h1, h2, h3, -⟩ :=
      proc_of_surv_nil items url mim ros rl dir ftf fnf skip h
    refine ⟨by simp [h1, h2], ?_⟩
    intro hftf t ht
    rw [h3] at ht
    exact Option.noConfusion ht
  · have hlen : (strip_step rl (surviving_items items ros skip)).length =
        (surviving_items items ros skip).length := strip_step_length rl _
    have hnestrip : strip_step rl (surviving_items items ros skip) ≠ [] := by
      intro hz
      apply h
      have hl : (surviving_items items ros skip).length = 0 := by
        rw [← strip_step_length rl (surviving_items items ros skip), hz]
        rfl
      exact List.length_eq_zero.mp hl
    rw [proc_main items url mim ros rl dir ftf fnf skip h]
    by_cases hc : (((strip_step rl
        (surviving_items items ros skip)).length : Int) > mim ∧
        fnf = false) ∨ ftf = true
    · rw [if_pos hc]
      refine ⟨by simp, ?_⟩
      intro hftf t ht
      subst hftf
      injection ht with ht
      subst ht
      rcases hc with ⟨hgt, -⟩ | hff
      · have hlt := length_pySliceTo_lt hnestrip hgt
        exact iff_of_false (by simp) (Nat.ne_of_lt hlt)
      · exact Bool.noConfusion hff
    · rw [if_neg hc]
      refine ⟨by simp [response_metadata_output_file], ?_⟩
      intro hftf t ht
      injection ht with ht
      subst ht
      simp

/-- Witness for the amended C1 at one record and threshold 5: the
envelope is complete and keeps its single item. -/
theorem C1_amended_completeness_invariant_witness :
    (_process_api_response [[("a", JValue.jnull)]] "u" 5 false true none
        false false false).is_complete = true ↔
    (_process_api_response [[("a", JValue.jnull)]] "u" 5 false true none
        false false false).items.length = 1 :=
  (C1_amended_completeness_invariant [[("a", JValue.jnull)]] "u" 5 false
    true none false false false).2 rfl 1 rfl

/-! ## Claim C5: the filter guarantee -/

/-- C5: with `return_only_sig` set and significance processing active,
every item of the returned envelope carries `is_gwas_significant = true`
— records flagged null or false never survive the filter. -/
theorem C5_filter_guarantee (items : List Obj) (url : String) (mim : Int)
    (rl : Bool) (dir : Option String) (ftf fnf : Bool) :
    ∀ it ∈ (_process_api_response items url mim true rl dir ftf fnf
      false).items,
      objGet it "is_gwas_significant" = some (.jbool true) := by
  intro it hit
  by_cases h : surviving_items items true false = []
  · rw [(proc_of_surv_nil items url mim true rl dir ftf fnf
      false h).2.2.2] at hit
    exact absurd hit (List.not_mem_nil it)
  · rw [proc_main items url mim true rl dir ftf fnf false h] at hit
    have hsurv : it ∈ strip_step rl (surviving_items items true false) := by
      split at hit
      · exact mem_of_mem_pySliceTo hit
      · exact hit
    obtain ⟨x, hx, hcase⟩ := mem_strip_step hsurv
    have hxflag : objGet x "is_gwas_significant" = some (.jbool true) := by
      have htr := truthyFlag_of_mem_surviving hx
      obtain ⟨s, hs, rfl⟩ := mem_surviving_noskip hx
      have htr' : pyTruthy (addFlagValue s) = true := by
        rw [truthyFlag, objGetD_eq_of_objGet (objGet_addFlagItem s)] at htr
        exact htr
      rcases addFlagValue_shape s with hn | ⟨b, hb⟩
      · rw [hn] at htr'
        simp [pyTruthy] at htr'
      · cases b
        · rw [hb] at htr'
          simp [pyTruthy] at htr'
        · rw [objGet_addFlagItem, hb]
    rcases hcase with rfl | rfl
    · exact hxflag
    · rw [objGet_removeLinksFields, if_neg (by decide), hxflag]
      rfl

/-- Witness for C5: a significant record survives and reads back a true
flag. -/
theorem C5_filter_guarantee_witness :
    objGet [("pvalue", JValue.jstr "1e-9"),
      ("is_gwas_significant", .jbool true)] "is_gwas_significant" =
      some (.jbool true) :=
  C5_filter_guarantee [[("pvalue", .jstr "1e-9")]] "u" 5 true none false
    false [("pvalue", JValue.jstr "1e-9"),
      ("is_gwas_significant", .jbool true)] (List.Mem.head _)

/-! ## The key order is a total preorder -/

theorem pfLeB_total (x y : PFloat) : pfLeB x y = true ∨ pfLeB y x = true := by
  cases x <;> cases y <;> simp [pfLeB]
  exact le_total _ _

theorem pfLeB_trans {x y z : PFloat} (h1 : pfLeB x y = true)
    (h2 : pfLeB y z = true) : pfLeB x z = true := by
  cases x <;> cases y <;> cases z <;> simp_all [pfLeB]
  exact le_trans h1 h2

instance : IsTotal Obj rank_key_le :=
  ⟨fun _ _ => pfLeB_total _ _⟩

instance : IsTrans Obj rank_key_le :=
  ⟨fun _ _ _ h1 h2 => pfLeB_trans h1 h2⟩

/-! ## Unfolding a successful ranking pre-sort -/

theorem presort_eq {items : List JValue} {top_n : Int} {l : List Obj}
    (h : trait_variant_ranking_presort items top_n = some l) :
    l = pySliceTo (List.insertionSort rank_key_le (rank_kept items)) top_n ∧
    ∀ fs ∈ rank_kept items, (rank_key fs).isSome = true := by
  rw [trait_variant_ranking_presort] at h
  by_cases h1 : items.all
      (fun v => match v with | .jobj _ => true | _ => false) = true
  · rw [if_pos h1] at h
    by_cases h2 : (rank_kept items).all
        (fun fs => (rank_key fs).isSome) = true
    · rw [if_pos h2] at h
      injection h with h
      exact ⟨h.symm, fun fs hfs => List.all_eq_true.mp h2 fs hfs⟩
    · rw [if_neg h2] at h
      exact Option.noConfusion h
  · rw [if_neg h1] at h
    exact Option.noConfusion h

/-- A record kept by the ranking comprehension has a truthy `pvalue`. -/
theorem mem_rank_kept {items : List JValue} {fs : Obj}
    (h : fs ∈ rank_kept items) : pyTruthy (objGetD fs "pvalue") = true := by
  rw [rank_kept] at h
  obtain ⟨v, hv, heq⟩ := List.mem_filterMap.mp h
  cases v with
  | jobj fs0 =>
    have heq' : (if pyTruthy (objGetD fs0 "pvalue") = true then some fs0
        else none) = some fs := heq
    by_cases ht : pyTruthy (objGetD fs0 "pvalue") = true
    · rw [if_pos ht] at heq'
      injection heq' with heq'
      rwa [← heq']
    · rw [if_neg ht] at heq'
      exact Option.noConfusion heq'
  | jnull | jbool b | jnum q | jstr s | jarr xs => exact Option.noConfusion heq

/-- Every member of the sliced sorted list is a kept record. -/
theorem mem_kept_of_mem_presort {items : List JValue} {top_n : Int}
    {l : List Obj} (h : trait_variant_ranking_presort items top_n = some l)
    {fs : Obj} (hfs : fs ∈ l) : fs ∈ rank_kept items := by
  obtain ⟨hl, -⟩ := presort_eq h
  subst hl
  exact (List.perm_insertionSort rank_key_le (rank_kept items)).mem_iff.mp
    (mem_of_mem_pySliceTo hfs)

/-- Members of a processed envelope (significance processing active) are
annotated — and possibly link-stripped — input records. -/
theorem mem_proc_items_noskip {items : List Obj} {url : String} {mim : Int}
    {ros rl : Bool} {dir : Option String} {ftf fnf : Bool} {it : Obj}
    (hit : it ∈ (_process_api_response items url mim ros rl dir ftf fnf
      false).items) :
    ∃ s ∈ items, it = addFlagItem s ∨ it = removeLinksFields (addFlagItem s)
    := by
  by_cases h : surviving_items items ros false = []
  · rw [(proc_of_surv_nil items url mim ros rl dir ftf fnf
      false h).2.2.2] at hit
    exact absurd hit (List.not_mem_nil it)
  · rw [proc_main items url mim ros rl dir ftf fnf false h] at hit
    have hsurv : it ∈ strip_step rl (surviving_items items ros false) := by
      split at hit
      · exact mem_of_mem_pySliceTo hit
      · exact hit
    obtain ⟨x, hx, hcase⟩ := mem_strip_step hsurv
    obtain ⟨s, hs, rfl⟩ := mem_surviving_noskip hx
    rcases hcase with rfl | rfl
    · exact ⟨s, hs, Or.inl rfl⟩
    · exact ⟨s, hs, Or.inr rfl⟩

/-- Reading a key through the default-returning getter when the plain
lookup fails. -/
theorem objGetD_of_none {fs : Obj} {k : String}
    (h : objGet fs k = none) : objGetD fs k = .jnull := by
  rw [objGetD, h]

/-! ## Claim C6: the ranking pre-sort -/

/-- C6: when the ranking pre-sort succeeds, the list handed to the
response processor is sorted by parsed p-value in ascending order and is
a smallest-first truncation to `top_n` of the kept records, and the
ranking operation hands exactly this list to the processor before any
significance/filter/size processing.  The `hnan` hypothesis excludes
float `nan` sort keys, on which the library sort of the runtime is
comparison-order dependent; on `nan`-free keys every stable sort gives
the same list. -/
theorem C6_ranking_presort (items : List JValue) (top_n : Int)
    (l : List Obj)
    (h : trait_variant_ranking_presort items top_n = some l)
    (hnan : ∀ fs ∈ rank_kept items, (rank_key fs).getD .nan ≠ .nan) :
    (List.Pairwise rank_key_le l ∧
      ∃ rest, (l ++ rest).Perm (rank_kept items) ∧
        ∀ a ∈ l, ∀ b ∈ rest, rank_key_le a b) ∧
    (0 ≤ top_n → l.length = min top_n.toNat (rank_kept items).length) ∧
    (items ≠ [] → ∀ url mim ros rl dir ftf fnf,
      trait_variant_ranking_core items url top_n mim ros rl dir ftf fnf =
        some (_process_api_response l url mim ros rl dir ftf fnf
          false)) := by
  obtain ⟨hl, -⟩ := presort_eq h
  have hsort : List.Sorted rank_key_le
      (List.insertionSort rank_key_le (rank_kept items)) :=
    List.sorted_insertionSort rank_key_le (rank_kept items)
  obtain ⟨k, hk⟩ : ∃ k : Nat, l =
      (List.insertionSort rank_key_le (rank_kept items)).take k := by
    rw [hl]
    unfold pySliceTo
    split
    · exact ⟨_, rfl⟩
    · exact ⟨_, rfl⟩
  have happ : List.Pairwise rank_key_le
      (l ++ (List.insertionSort rank_key_le (rank_kept items)).drop k) := by
    rw [hk, List.take_append_drop]
    exact hsort
  refine ⟨⟨?_, ?_⟩, ?_, ?_⟩
  · rw [hk]
    exact List.Pairwise.sublist (List.take_sublist _ _) hsort
  · refine ⟨(List.insertionSort rank_key_le (rank_kept items)).drop k,
      ?_, ?_⟩
    · rw [hk, List.take_append_drop]
      exact List.perm_insertionSort rank_key_le (rank_kept items)
    · exact (List.pairwise_append.mp happ).2.2
  · intro hn
    rw [hl]
    unfold pySliceTo
    rw [if_pos hn, List.length_take,
      (List.perm_insertionSort rank_key_le (rank_kept items)).length_eq]
  · intro hne url mim ros rl dir ftf fnf
    rw [trait_variant_ranking_core, if_neg (by simp [hne]), h]
    rfl

/-- Witness for C6 at the spec's scenario: three records, `top_n = 2`,
sorted ascending and truncated before processing. -/
theorem C6_ranking_presort_witness :
    trait_variant_ranking_core
      [.jobj [("pvalue", .jstr "0.01")], .jobj [("pvalue", .jstr "1e-9")],
       .jobj [("pvalue", .jstr "1e-7")]] "u" 2 5000 true true none false
      false =
    some (_process_api_response
      [[("pvalue", .jstr "1e-9")], [("pvalue", .jstr "1e-7")]] "u" 5000
      true true none false false false) :=
  (C6_ranking_presort
    [.jobj [("pvalue", .jstr "0.01")], .jobj [("pvalue", .jstr "1e-9")],
     .jobj [("pvalue", .jstr "1e-7")]] 2
    [[("pvalue", .jstr "1e-9")], [("pvalue", .jstr "1e-7")]] rfl
    (by decide)).2.2 (by simp) "u" 5000 true true none false false

/-! ## Claim C10: falsy p-values are discarded before ranking -/

/-- C10 (implicit): in the ranking operation, a record whose `pvalue`
field is absent, null, or otherwise falsy never enters the sorted list,
and never appears in the ranking output — every record of the pre-sorted
list, and every item of the resulting envelope, has a truthy `pvalue`. -/
theorem C10_ranking_discards_falsy_pvalues (items : List JValue)
    (top_n : Int) (l : List Obj)
    (h : trait_variant_ranking_presort items top_n = some l) :
    (∀ fs ∈ l, pyTruthy (objGetD fs "pvalue") = true) ∧
    (∀ url mim ros rl dir ftf fnf e,
      trait_variant_ranking_core items url top_n mim ros rl dir ftf fnf =
        some e → ∀ it ∈ e.items, pyTruthy (objGetD it "pvalue") = true)
    := by
  obtain ⟨-, hall⟩ := presort_eq h
  have hmem : ∀ fs ∈ l, fs ∈ rank_kept items :=
    fun fs hfs => mem_kept_of_mem_presort h hfs
  have hl1 : ∀ fs ∈ l, pyTruthy (objGetD fs "pvalue") = true :=
    fun fs hfs => mem_rank_kept (hmem fs hfs)
  refine ⟨hl1, ?_⟩
  intro url mim ros rl dir ftf fnf e hcore it hit
  rw [trait_variant_ranking_core] at hcore
  by_cases hemp : items.isEmpty = true
  · rw [if_pos hemp] at hcore
    injection hcore with hcore
    rw [← hcore] at hit
    simp [create_empty_response] at hit
  · rw [if_neg hemp, h] at hcore
    injection hcore with hcore
    rw [← hcore] at hit
    obtain ⟨s, hs, hcase⟩ := mem_proc_items_noskip hit
    have hst := hl1 s hs
    obtain ⟨pv, hg, htr⟩ : ∃ pv, objGet s "pvalue" = some pv ∧
        pyTruthy pv = true := by
      cases hg : objGet s "pvalue" with
      | none =>
        rw [objGetD_of_none hg] at hst
        simp [pyTruthy] at hst
      | some pv =>
        rw [objGetD_eq_of_objGet hg] at hst
        exact ⟨pv, rfl, hst⟩
    have hkey := hall s (hmem s hs)
    rw [rank_key, hg] at hkey
    have hkey' : (pyFloat pv).isSome = true := hkey
    obtain ⟨p, hp⟩ := Option.isSome_iff_exists.mp hkey'
    have hid : _remove_links pv = pv := remove_links_of_pyFloat hp
    have hga : objGet (addFlagItem s) "pvalue" = some pv := by
      rw [objGet_addFlagItem_ne s "pvalue" (by decide), hg]
    rcases hcase with rfl | rfl
    · rw [objGetD_eq_of_objGet hga]
      exact htr
    · have hgs : objGet (removeLinksFields (addFlagItem s)) "pvalue" =
          some pv := by
        rw [objGet_removeLinksFields, if_neg (by decide), hga]
        simp [hid]
      rw [objGetD_eq_of_objGet hgs]
      exact htr

/-- Witness for C10 at the spec's ranking scenario: the surviving first
record has a truthy `pvalue`. -/
theorem C10_ranking_discards_falsy_pvalues_witness :
    pyTruthy (objGetD [("pvalue", JValue.jstr "1e-9")] "pvalue") = true :=
  (C10_ranking_discards_falsy_pvalues
    [.jobj [("pvalue", .jstr "0.5")], .jobj [("pvalue", .jstr "1e-9")],
     .jobj [("p_value", .jstr "1e-9")]] 3
    [[("pvalue", .jstr "1e-9")], [("pvalue", .jstr "0.5")]] rfl).1
    [("pvalue", JValue.jstr "1e-9")] (List.Mem.head _)
